import Mathlib

/-!
# Verification of the htrackr habit tracker core

Shallow embedding of `src/date.rs`, `src/storage.rs` and the grid-header part
of `src/commands.rs`, together with theorems settling the frozen claims about
the natural-language specification.

Modelling conventions:
* Rust `i32` values are modelled as `Int`.  All arithmetic in the source that
  could overflow is bounded far below `2^31` (years of at most four digits,
  months, days), so no wrap-around modelling is needed; the `i32` range check
  of `str::parse::<i32>` is embedded explicitly in `parse_i32`.
* Rust `%` on `i32` truncates towards zero while Lean's `%` on `Int` is the
  Euclidean remainder.  The source only ever compares `x % k == 0` (leap-year
  tests), where both conventions agree (both are equivalent to `k ∣ x`), and
  computes `i % 10` for `i ≥ 1`, where they also agree, so Lean's `%` is a
  faithful embedding at every use site.
* The SQLite tables are modelled as association lists in insertion order:
  `habits` as `List (id × name)` and `habit_entries` as
  `List (habit_id × date_text)`.  A `select ... limit one row` (`query_row`)
  returns the first matching row, `delete`/`update` affect every matching row,
  and `insert` appends — matching SQLite behaviour for tables without indices
  or `order by`.  `between` on a `TEXT` column is byte-wise lexicographic
  comparison, which on UTF-8 agrees with `String`'s lexicographic order.
* `Uuid::new_v4()` is nondeterministic; `create_habit` therefore takes the
  generated identifier as an explicit argument.
* `CliError` is a plain string wrapper in the source; errors are modelled as
  `Except String` carrying the exact `format!` message text.
-/

/-- One decimal digit as a character, `48 = '0'`. -/
def digitChar48 (d : Nat) : Char := Char.ofNat (48 + d)

/-- Value of a big-endian list of ASCII digit characters
(the accumulator loop of Rust's `from_str_radix`). -/
def digitsVal (l : List Char) : Nat :=
  l.foldl (fun a c => 10 * a + (c.toNat - 48)) 0

/-- Core loop of decimal formatting, structurally recursive on explicit fuel
(the same digit-by-digit `n % 10` / `n / 10` loop used by Rust's `Display`
implementation for integers). -/
def decCharsCore : Nat → Nat → List Char → List Char
  | 0, _, acc => acc
  | fuel + 1, n, acc =>
    if n < 10 then digitChar48 n :: acc
    else decCharsCore fuel (n / 10) (digitChar48 (n % 10) :: acc)

/-- Decimal representation of a natural number, most significant digit first. -/
def decChars (n : Nat) : List Char := decCharsCore (n + 1) n []

/-- Rust `format!` with width `w` and zero fill (`{:04}`, `{:02}`):
sign first, then zero padding up to total width `w`, then the digits. -/
def zero_pad_chars (w : Nat) (n : Int) : List Char :=
  let sign : List Char := if n < 0 then ['-'] else []
  let digs := decChars n.natAbs
  sign ++ List.replicate (w - (sign.length + digs.length)) '0' ++ digs

/-- String form of `zero_pad_chars`. -/
def zero_pad (w : Nat) (n : Int) : String := String.mk (zero_pad_chars w n)

/-- Rust `format!("{}", n)` for an integer: sign then decimal digits. -/
def int_repr_chars (n : Int) : List Char :=
  (if n < 0 then ['-'] else []) ++ decChars n.natAbs

/-- ASCII digit test (`'0'` through `'9'`), the digit class accepted by
Rust's `from_str_radix` at radix 10. -/
def isAsciiDigit (c : Char) : Bool :=
  48 <= c.toNat && c.toNat <= 57

/-- The Unicode `White_Space` test used by Rust's `str::trim`
(`char::is_whitespace`). -/
def isRustWhitespace (c : Char) : Bool :=
  (9 <= c.toNat && c.toNat <= 13) || c.toNat = 32 ||
  c.toNat = 0x85 || c.toNat = 0xA0 || c.toNat = 0x1680 ||
  (0x2000 <= c.toNat && c.toNat <= 0x200A) ||
  c.toNat = 0x2028 || c.toNat = 0x2029 || c.toNat = 0x202F ||
  c.toNat = 0x205F || c.toNat = 0x3000

/-- Rust `str::trim`: drop whitespace from both ends. -/
def rust_trim (l : List Char) : List Char :=
  ((l.dropWhile isRustWhitespace).reverse.dropWhile isRustWhitespace).reverse

/-- Split a character list at the first `'-'`; returns the part before it and,
when a `'-'` was found, the remainder after it. -/
def splitFirstDash : List Char → List Char × Option (List Char)
  | [] => ([], none)
  | c :: rest =>
    if c = '-' then ([], some rest)
    else
      let r := splitFirstDash rest
      (c :: r.1, r.2)

/-- Rust `s.splitn(3, "-")`: at most three pieces, the last piece keeping any
further `'-'` characters. -/
def splitn3 (l : List Char) : List (List Char) :=
  match splitFirstDash l with
  | (a, none) => [a]
  | (a, some r1) =>
    match splitFirstDash r1 with
    | (b, none) => [a, b]
    | (b, some r2) => [a, b, r2]

/-- Rust `str::parse::<i32>` (`from_str_radix` with radix 10): an optional
sign, then at least one ASCII digit, with the `i32` range check.  Error texts
are the `Display` output of the corresponding `ParseIntError`.  (Rust detects
overflow during accumulation, so on a string with an invalid digit *after*
more than ten leading digits it would report overflow first; the fields this
program parses have at most four characters, where the two behaviours
coincide.) -/
def parse_i32 (l : List Char) : Except String Int :=
  match l with
  | [] => .error "cannot parse integer from empty string"
  | c :: _ =>
    let digits := if c = '+' || c = '-' then l.tail else l
    if digits = [] then .error "invalid digit found in string"
    else if ¬ (digits.all isAsciiDigit) then .error "invalid digit found in string"
    else if c = '-' then
      if digitsVal digits ≤ 2147483648 then .ok (-(digitsVal digits : Int))
      else .error "number too small to fit in target type"
    else
      if digitsVal digits ≤ 2147483647 then .ok ((digitsVal digits : Int))
      else .error "number too large to fit in target type"

/-- `Date` from `src/date.rs`. -/
structure Date where
  year : Int
  month : Int
  day : Int
deriving DecidableEq, Repr

/-- `num_days` from `src/date.rs`: days in a month, `0` for an out-of-range
month. -/
def num_days (year month : Int) : Int :=
  if month = 1 then 31
  else if month = 2 then
    (if (year % 4 = 0 ∧ year % 100 ≠ 0) ∨ year % 400 = 0 then 29 else 28)
  else if month = 3 then 31
  else if month = 4 then 30
  else if month = 5 then 31
  else if month = 6 then 30
  else if month = 7 then 31
  else if month = 8 then 31
  else if month = 9 then 30
  else if month = 10 then 31
  else if month = 11 then 30
  else if month = 12 then 31
  else 0

/-- `Date::is_valid` from `src/date.rs`. -/
def Date.is_valid (dt : Date) : Bool :=
  if dt.year < 1 then false
  else if dt.month < 1 ∨ 12 < dt.month then false
  else if dt.day < 1 ∨ num_days dt.year dt.month < dt.day then false
  else true

/-- The `format!("{:04}-{:02}-{:02}", ...)` string built by
`Date::to_string`. -/
def format_date_chars (d : Date) : List Char :=
  zero_pad_chars 4 d.year ++ '-' :: (zero_pad_chars 2 d.month ++ '-' :: zero_pad_chars 2 d.day)

/-- String form of `format_date_chars`. -/
def format_date (d : Date) : String := String.mk (format_date_chars d)

/-- `Date::to_string` from `src/date.rs`: formats first, then re-checks
validity and fails on an invalid date. -/
def Date.to_string (d : Date) : Except String String :=
  if d.is_valid then .ok (format_date d)
  else .error ("invalid date " ++ format_date d)

/-- `Date::from_string` from `src/date.rs`: trim, `splitn(3, "-")`, component
count and width checks, three `i32` parses, then the validity check. -/
def Date.from_string (s : String) : Except String Date :=
  match splitn3 (rust_trim s.data) with
  | [y_str, m_str, d_str] =>
    if y_str.length ≠ 4 then
      .error ("failed to parse year " ++ String.mk y_str ++ ", expected YYYY")
    else if m_str.length ≠ 2 then
      .error ("failed to parse month " ++ String.mk m_str ++ ", expected MM")
    else if d_str.length ≠ 2 then
      .error ("failed to parse day " ++ String.mk d_str ++ ", expected DD")
    else
      match parse_i32 y_str with
      | .error e => .error e
      | .ok y =>
        match parse_i32 m_str with
        | .error e => .error e
        | .ok m =>
          match parse_i32 d_str with
          | .error e => .error e
          | .ok d =>
            if (Date.mk y m d).is_valid then .ok (Date.mk y m d)
            else .error ("invalid date " ++ s)
  | _ => .error ("failed to parse date " ++ s ++ ", expected YYYY-MM-DD format")


/-- In-memory model of the SQLite store of `src/storage.rs`: the `habits`
table as `(id, name)` rows and the `habit_entries` table as
`(habit_id, date_text)` rows, both in insertion order. -/
structure StorageState where
  habits : List (String × String)
  entries : List (String × String)
deriving DecidableEq, Repr

/-- `Storage::habit_exists`: `select count(1) from habits where name = ?1`
compared with `> 0`. -/
def habit_exists (s : StorageState) (name : String) : Bool :=
  s.habits.any (fun h => h.2 == name)

/-- `Storage::get_habit_id`: `query_row` returns the first row with the given
name; any failure (including no row) is mapped to the not-found error. -/
def get_habit_id (s : StorageState) (name : String) : Except String String :=
  match s.habits.find? (fun h => h.2 == name) with
  | some h => .ok h.1
  | none => .error ("habit " ++ name ++ " not found")

/-- `Storage::habit_list`: `select name from habits` in table order. -/
def habit_list (s : StorageState) : List String :=
  s.habits.map Prod.snd

/-- `Storage::create_habit`.  The source generates the row id as
`"hbt_" ++ Uuid::new_v4()`; the generated id is passed in as `id`. -/
def create_habit (s : StorageState) (id name : String) : Except String StorageState :=
  if habit_exists s name then .error "habit already exists"
  else if name == "" then .error "invaid name"
  else .ok { habits := s.habits ++ [(id, name)], entries := s.entries }

/-- `Storage::delete_habit`: existence check, then delete the entries of the
resolved id, then delete every habit row with that name. -/
def delete_habit (s : StorageState) (name : String) : Except String StorageState :=
  if ¬ habit_exists s name then .error ("habit " ++ name ++ " not found")
  else
    match get_habit_id s name with
    | .error e => .error e
    | .ok id =>
      .ok { habits := s.habits.filter (fun h => !(h.2 == name)),
            entries := s.entries.filter (fun e => !(e.1 == id)) }

/-- `Storage::rename_habit`: existence check on the old name, then
`update habits set name = ?1 where name = ?2` (no check on the new name). -/
def rename_habit (s : StorageState) (name new_name : String) : Except String StorageState :=
  if ¬ habit_exists s name then .error ("habit " ++ name ++ " not found")
  else .ok { habits := s.habits.map (fun h => if h.2 == name then (h.1, new_name) else h),
             entries := s.entries }

/-- `Storage::mark_habit`: validate/format the date, resolve the name, check
for an existing `(id, date)` entry, insert. -/
def mark_habit (s : StorageState) (name : String) (d : Date) : Except String StorageState :=
  match d.to_string with
  | .error e => .error e
  | .ok ds =>
    match get_habit_id s name with
    | .error e => .error e
    | .ok id =>
      if s.entries.any (fun e => e.1 == id && e.2 == ds) then
        .error ("habit " ++ name ++ " already marked for " ++ ds ++ " date")
      else
        .ok { habits := s.habits, entries := s.entries ++ [(id, ds)] }

/-- `Storage::unmark_habit`: validate/format the date, resolve the name, check
that an `(id, date)` entry exists, delete it. -/
def unmark_habit (s : StorageState) (name : String) (d : Date) : Except String StorageState :=
  match d.to_string with
  | .error e => .error e
  | .ok ds =>
    match get_habit_id s name with
    | .error e => .error e
    | .ok id =>
      if ¬ s.entries.any (fun e => e.1 == id && e.2 == ds) then
        .error ("habit " ++ name ++ " is not marked for " ++ ds ++ " date")
      else
        .ok { habits := s.habits,
              entries := s.entries.filter (fun e => !(e.1 == id && e.2 == ds)) }

/-- `Storage::get_marked_days`: validate/format both bounds, resolve the name,
`select date ... between ?2 and ?3` (lexicographic text comparison,
inclusive), then re-parse each row, silently dropping rows that fail to
parse. -/
def get_marked_days (s : StorageState) (name : String) (date_start date_end : Date) :
    Except String (List Date) :=
  match date_start.to_string with
  | .error e => .error e
  | .ok ds =>
    match date_end.to_string with
    | .error e => .error e
    | .ok de =>
      match get_habit_id s name with
      | .error e => .error e
      | .ok id =>
        let rows := (s.entries.filter
          (fun e => e.1 == id && decide (ds ≤ e.2) && decide (e.2 ≤ de))).map Prod.snd
        .ok (rows.filterMap (fun t => (Date.from_string t).toOption))

/-- The `format!("{:04}-{:02}", year, month)` month label of the `list`
command (`src/commands.rs`). -/
def month_label (year month : Int) : String :=
  zero_pad 4 year ++ "-" ++ zero_pad 2 month

/-- The `target_indent` loop of the `list` command: start from the label's
byte length plus two and take the maximum with each habit-name byte length
(Rust `str::len` counts UTF-8 bytes, `String.utf8ByteSize` here). -/
def target_indent (year month : Int) (names : List String) : Nat :=
  names.foldl (fun acc n => if n.utf8ByteSize > acc then n.utf8ByteSize else acc)
    ((month_label year month).utf8ByteSize + 2)

/-- The header line `line0` built by the `list` command
(`src/commands.rs` lines 108–125): the padded month label, `"| "`, and one
`format!("{}", i % 10)` cell per day `i` of the month. -/
def header_line (year month : Int) (names : List String) : String :=
  let md := month_label year month
  let ti := target_indent year month names
  md ++ String.mk (List.replicate (ti - md.utf8ByteSize) ' ') ++ "| " ++
    String.mk (((List.range (num_days year month).toNat).map
      (fun k => int_repr_chars (Int.ofNat (k + 1) % 10))).flatten)


/-- Shape predicate written from the words of claim C3 (not from the code):
the input is exactly four ASCII digits, a hyphen, two digits, a hyphen, two
digits. -/
def specStrictShape (s : String) : Bool :=
  match s.data with
  | [y1, y2, y3, y4, h1, m1, m2, h2, d1, d2] =>
    ([y1, y2, y3, y4, m1, m2, d1, d2].all isAsciiDigit) && h1 = '-' && h2 = '-'
  | _ => false

/-- Written from the amended wording of claim C3: an optionally signed decimal
numeral (sign, then at least one ASCII digit) whose value fits in an `i32`. -/
def i32Numeral (l : List Char) : Bool :=
  match l with
  | [] => false
  | c :: _ =>
    let digits := if c = '+' || c = '-' then l.tail else l
    decide (digits ≠ []) && digits.all isAsciiDigit &&
      (if c = '-' then decide (digitsVal digits ≤ 2147483648)
       else decide (digitsVal digits ≤ 2147483647))

/-- The integer denoted by an `i32Numeral`. -/
def i32Value (l : List Char) : Int :=
  match l with
  | [] => 0
  | c :: _ =>
    let digits := if c = '+' || c = '-' then l.tail else l
    if c = '-' then -(digitsVal digits : Int) else (digitsVal digits : Int)

/-- Acceptance predicate of the amended claim C3, written from its wording:
after trimming, the input splits at the first two hyphens into fields of
widths 4, 2 and 2, each field is an optionally signed decimal `i32` numeral,
and the denoted date is calendar-valid. -/
def spec_accepts (s : String) : Bool :=
  match splitn3 (rust_trim s.data) with
  | [y_str, m_str, d_str] =>
    y_str.length == 4 && m_str.length == 2 && d_str.length == 2 &&
    i32Numeral y_str && i32Numeral m_str && i32Numeral d_str &&
    Date.is_valid ⟨i32Value y_str, i32Value m_str, i32Value d_str⟩
  | _ => false

/-- One successful storage operation, as in claim C1, except that a rename is
only allowed when no habit already carries the new name (the amended claim;
the unrestricted rename breaks the invariant, see the C1 counterexample). -/
inductive SafeStep : StorageState → StorageState → Prop where
  | create (s s' : StorageState) (id name : String)
      (h : create_habit s id name = .ok s') : SafeStep s s'
  | delete (s s' : StorageState) (name : String)
      (h : delete_habit s name = .ok s') : SafeStep s s'
  | rename (s s' : StorageState) (name new_name : String)
      (hfree : habit_exists s new_name = false)
      (h : rename_habit s name new_name = .ok s') : SafeStep s s'
  | mark (s s' : StorageState) (name : String) (d : Date)
      (h : mark_habit s name d = .ok s') : SafeStep s s'
  | unmark (s s' : StorageState) (name : String) (d : Date)
      (h : unmark_habit s name d = .ok s') : SafeStep s s'

lemma habit_exists_false_iff {s : StorageState} {n : String} :
    habit_exists s n = false ↔ ∀ p ∈ s.habits, p.2 ≠ n := by
  simp [habit_exists]

lemma get_habit_id_ok_of_exists {s : StorageState} {n : String}
    (h : habit_exists s n = true) : ∃ id, get_habit_id s n = .ok id := by
  unfold habit_exists at h
  rw [List.any_eq_true] at h
  obtain ⟨p, hp, hpn⟩ := h
  have : (s.habits.find? (fun h => h.2 == n)).isSome := by
    rw [List.find?_isSome]
    exact ⟨p, hp, hpn⟩
  obtain ⟨q, hq⟩ := Option.isSome_iff_exists.mp this
  exact ⟨q.1, by simp [get_habit_id, hq]⟩

/-- C10: for an invalid date, `mark_habit` and `unmark_habit` fail with the
date-formatting error — for every store and every name, including names that
resolve to no habit — because `Date::to_string` is called before name
resolution and before any query or write.  In this pure model an error result
leaves the state with the caller untouched, which matches the source: the
early return happens before any SQL statement is issued. -/
theorem C10_invalid_date_rejected_first (s : StorageState) (name : String) (d : Date)
    (hd : d.is_valid = false) :
    mark_habit s name d = .error ("invalid date " ++ format_date d) ∧
    unmark_habit s name d = .error ("invalid date " ++ format_date d) := by
  constructor <;> simp [mark_habit, unmark_habit, Date.to_string, hd]

theorem C10_witness :
    Date.is_valid ⟨2006, 2, 30⟩ = false ∧
    (mark_habit ⟨[], []⟩ "read" ⟨2006, 2, 30⟩ =
      .error ("invalid date " ++ format_date ⟨2006, 2, 30⟩) ∧
     unmark_habit ⟨[], []⟩ "read" ⟨2006, 2, 30⟩ =
      .error ("invalid date " ++ format_date ⟨2006, 2, 30⟩)) :=
  ⟨by decide, C10_invalid_date_rejected_first ⟨[], []⟩ "read" ⟨2006, 2, 30⟩ (by decide)⟩

/-- C4 fails as stated: the claim quantifies over every integer year, but
`is_valid` rejects any year below 1, so at year 0 — which is divisible by 4
and by 400 — the claimed equivalence is false. -/
theorem C4_counterexample :
    ¬ (Date.is_valid ⟨0, 2, 29⟩ = true ↔
      ((4 : Int) ∣ 0 ∧ (¬ (100 : Int) ∣ 0 ∨ (400 : Int) ∣ 0))) := by
  intro h
  have hv : Date.is_valid ⟨0, 2, 29⟩ = true :=
    h.mpr ⟨dvd_zero 4, Or.inr (dvd_zero 400)⟩
  exact absurd hv (by decide)

/-- C4 amended: for every year `y ≥ 1`, February 29 of `y` is valid iff `y`
is divisible by 4 and (not divisible by 100 or divisible by 400). -/
theorem C4_feb29_leap_iff (y : Int) (hy : 1 ≤ y) :
    Date.is_valid ⟨y, 2, 29⟩ = true ↔ ((4 : Int) ∣ y ∧ (¬ (100 : Int) ∣ y ∨ (400 : Int) ∣ y)) := by
  have h1 : ¬ (y < 1) := by omega
  have h44 : (400 : Int) ∣ y → (4 : Int) ∣ y := fun h => dvd_trans (by norm_num) h
  simp only [Date.is_valid, num_days]
  norm_num [h1]
  split_ifs with hl
  · norm_num
    tauto
  · norm_num
    tauto

theorem C4_witness :
    (1 : Int) ≤ 2004 ∧
    (Date.is_valid ⟨2004, 2, 29⟩ = true ↔
      ((4 : Int) ∣ 2004 ∧ (¬ (100 : Int) ∣ 2004 ∨ (400 : Int) ∣ 2004))) :=
  ⟨by decide, C4_feb29_leap_iff 2004 (by decide)⟩

/-- C5: `delete_habit` fails with the not-found error when no habit has the
given name; on success (the name resolves to id `id`) the resulting store has
no habit with that name, its entry table is the old one with every entry of
`id` removed (and nothing else removed), so no entry referencing `id`
remains. -/
theorem C5_delete_habit (s : StorageState) (name : String) :
    (habit_exists s name = false →
      delete_habit s name = .error ("habit " ++ name ++ " not found")) ∧
    (habit_exists s name = true →
      ∃ id s', get_habit_id s name = .ok id ∧ delete_habit s name = .ok s' ∧
        habit_exists s' name = false ∧
        s'.entries = s.entries.filter (fun e => !(e.1 == id)) ∧
        ∀ e ∈ s'.entries, e.1 ≠ id) := by
  constructor
  · intro h
    simp [delete_habit, h]
  · intro h
    obtain ⟨id, hid⟩ := get_habit_id_ok_of_exists h
    refine ⟨id, ⟨s.habits.filter (fun p => !(p.2 == name)),
                 s.entries.filter (fun e => !(e.1 == id))⟩, hid, ?_, ?_, ?_, ?_⟩
    · simp [delete_habit, h, hid]
    · simp [habit_exists, List.any_filter]
    · rfl
    · intro e he
      have := (List.mem_filter.mp he).2
      simpa using this

theorem C5_witness :
    habit_exists ⟨[("hbt_1", "read")], [("hbt_1", "2006-06-07"), ("hbt_1", "2006-06-09")]⟩ "read" = true ∧
    (∃ id s', get_habit_id ⟨[("hbt_1", "read")], [("hbt_1", "2006-06-07"), ("hbt_1", "2006-06-09")]⟩ "read" = .ok id ∧
      delete_habit ⟨[("hbt_1", "read")], [("hbt_1", "2006-06-07"), ("hbt_1", "2006-06-09")]⟩ "read" = .ok s' ∧
      habit_exists s' "read" = false ∧
      s'.entries = [("hbt_1", "2006-06-07"), ("hbt_1", "2006-06-09")].filter (fun e => !(e.1 == id)) ∧
      ∀ e ∈ s'.entries, e.1 ≠ id) :=
  ⟨rfl, (C5_delete_habit ⟨[("hbt_1", "read")], [("hbt_1", "2006-06-07"), ("hbt_1", "2006-06-09")]⟩ "read").2 rfl⟩

lemma get_habit_id_error_msg {s : StorageState} {n e : String}
    (h : get_habit_id s n = .error e) : e = "habit " ++ n ++ " not found" := by
  unfold get_habit_id at h
  cases hf : s.habits.find? (fun h => h.2 == n) with
  | none => rw [hf] at h; exact (Except.error.injEq _ _).mp h.symm
  | some q => rw [hf] at h; cases h

lemma any_pair_mem {l : List (String × String)} {a b : String} :
    (l.any (fun e => e.1 == a && e.2 == b)) = true ↔ (a, b) ∈ l := by
  simp only [List.any_eq_true, Bool.and_eq_true, beq_iff_eq]
  constructor
  · rintro ⟨⟨x, y⟩, hm, h1, h2⟩
    cases h1; cases h2; exact hm
  · intro hm
    exact ⟨(a, b), hm, rfl, rfl⟩

/-- C6: for a valid date, `mark_habit` and `unmark_habit` first resolve the
name (failing with the not-found error when it resolves to no habit); with the
name resolved to `id` and `ds` the formatted date, `mark_habit` fails with the
already-marked error exactly when an `(id, ds)` entry exists and otherwise
appends exactly that entry, and `unmark_habit` fails with the not-marked error
exactly when no `(id, ds)` entry exists and otherwise deletes exactly the
`(id, ds)` entries. -/
theorem C6_mark_unmark (s : StorageState) (name : String) (d : Date)
    (hd : d.is_valid = true) :
    (∀ e, get_habit_id s name = .error e →
      mark_habit s name d = .error e ∧ unmark_habit s name d = .error e ∧
      e = "habit " ++ name ++ " not found") ∧
    (∀ id, get_habit_id s name = .ok id →
      ((mark_habit s name d =
          .error ("habit " ++ name ++ " already marked for " ++ format_date d ++ " date")) ↔
        (id, format_date d) ∈ s.entries) ∧
      ((id, format_date d) ∉ s.entries →
        mark_habit s name d = .ok ⟨s.habits, s.entries ++ [(id, format_date d)]⟩) ∧
      ((unmark_habit s name d =
          .error ("habit " ++ name ++ " is not marked for " ++ format_date d ++ " date")) ↔
        (id, format_date d) ∉ s.entries) ∧
      ((id, format_date d) ∈ s.entries →
        unmark_habit s name d =
          .ok ⟨s.habits, s.entries.filter (fun e => !(e.1 == id && e.2 == format_date d))⟩)) := by
  constructor
  · intro e he
    refine ⟨?_, ?_, get_habit_id_error_msg he⟩ <;>
      simp [mark_habit, unmark_habit, Date.to_string, hd, he]
  · intro id hid
    by_cases hmem : (id, format_date d) ∈ s.entries
    · have hany : (s.entries.any (fun e => e.1 == id && e.2 == format_date d)) = true :=
        any_pair_mem.mpr hmem
      refine ⟨?_, ?_, ?_, ?_⟩ <;>
        simp [mark_habit, unmark_habit, Date.to_string, hd, hid, hany, hmem]
    · have hany : (s.entries.any (fun e => e.1 == id && e.2 == format_date d)) = false := by
        rw [← Bool.not_eq_true]
        intro hc
        exact hmem (any_pair_mem.mp hc)
      refine ⟨?_, ?_, ?_, ?_⟩ <;>
        simp [mark_habit, unmark_habit, Date.to_string, hd, hid, hany, hmem]

theorem C6_witness :
    mark_habit ⟨[("i1", "abcde")], [("i1", "2006-06-07")]⟩ "abcde" ⟨2006, 6, 9⟩ =
      .ok ⟨[("i1", "abcde")], [("i1", "2006-06-07")] ++ [("i1", format_date ⟨2006, 6, 9⟩)]⟩ ∧
    unmark_habit ⟨[("i1", "abcde")], [("i1", "2006-06-07")]⟩ "abcde" ⟨2006, 6, 7⟩ =
      .ok ⟨[("i1", "abcde")],
           [("i1", "2006-06-07")].filter (fun e => !(e.1 == "i1" && e.2 == format_date ⟨2006, 6, 7⟩))⟩ :=
  ⟨((C6_mark_unmark ⟨[("i1", "abcde")], [("i1", "2006-06-07")]⟩ "abcde" ⟨2006, 6, 9⟩
      (by decide)).2 "i1" rfl).2.1 (by decide),
   ((C6_mark_unmark ⟨[("i1", "abcde")], [("i1", "2006-06-07")]⟩ "abcde" ⟨2006, 6, 7⟩
      (by decide)).2 "i1" rfl).2.2.2 (by decide)⟩

lemma except_toOption_eq_some {x : Except String Date} {d : Date} :
    x.toOption = some d ↔ x = .ok d := by
  cases x <;> simp [Except.toOption]

/-- C7: for valid boundary dates and a name resolving to `id`,
`get_marked_days` succeeds, and a date `d` is in its result exactly when some
stored entry `(id, t)` has its text `t` between the two formatted boundaries
(inclusive, lexicographic text comparison) and `t` re-parses to `d`; entries
whose text does not re-parse are silently omitted rather than raising an
error. -/
theorem C7_get_marked_days (s : StorageState) (name : String) (d1 d2 : Date) (id : String)
    (h1 : d1.is_valid = true) (h2 : d2.is_valid = true)
    (hid : get_habit_id s name = .ok id) :
    ∃ l, get_marked_days s name d1 d2 = .ok l ∧
      ∀ d : Date, d ∈ l ↔
        ∃ t, (id, t) ∈ s.entries ∧ format_date d1 ≤ t ∧ t ≤ format_date d2 ∧
          Date.from_string t = .ok d := by
  refine ⟨((s.entries.filter
      (fun e => e.1 == id && decide (format_date d1 ≤ e.2) && decide (e.2 ≤ format_date d2))).map
        Prod.snd).filterMap (fun t => (Date.from_string t).toOption), ?_, ?_⟩
  · simp [get_marked_days, Date.to_string, h1, h2, hid]
  · intro d
    simp only [List.mem_filterMap, List.mem_map, List.mem_filter, Bool.and_eq_true,
      beq_iff_eq, decide_eq_true_eq, except_toOption_eq_some]
    constructor
    · rintro ⟨t, ⟨⟨a, b⟩, ⟨hmem, ⟨ha, hle1⟩, hle2⟩, rfl⟩, hparse⟩
      cases ha
      exact ⟨b, hmem, hle1, hle2, hparse⟩
    · rintro ⟨t, hmem, hl1, hl2, hparse⟩
      exact ⟨t, ⟨(id, t), ⟨hmem, ⟨rfl, hl1⟩, hl2⟩, rfl⟩, hparse⟩

theorem C7_witness :
    Date.is_valid ⟨2006, 6, 1⟩ = true ∧ Date.is_valid ⟨2006, 6, 20⟩ = true ∧
    (∃ l, get_marked_days ⟨[("i1", "abcde")], [("i1", "2006-06-07"), ("i1", "2006-06-09")]⟩
        "abcde" ⟨2006, 6, 1⟩ ⟨2006, 6, 20⟩ = .ok l ∧
      ∀ d : Date, d ∈ l ↔
        ∃ t, ("i1", t) ∈ [("i1", "2006-06-07"), ("i1", "2006-06-09")] ∧
          format_date ⟨2006, 6, 1⟩ ≤ t ∧ t ≤ format_date ⟨2006, 6, 20⟩ ∧
          Date.from_string t = .ok d) :=
  ⟨by decide, by decide,
   C7_get_marked_days ⟨[("i1", "abcde")], [("i1", "2006-06-07"), ("i1", "2006-06-09")]⟩
     "abcde" ⟨2006, 6, 1⟩ ⟨2006, 6, 20⟩ "i1" (by decide) (by decide) rfl⟩

/-- C8 fails as stated: `rename_habit` does not check the new name, and
`get_habit_id` returns the first matching row, so renaming "a" to "b" while a
habit named "b" already exists earlier in the table makes
`get_habit_id "b"` return the other habit's id, not the renamed habit's. -/
theorem C8_counterexample :
    rename_habit ⟨[("i1", "b"), ("i2", "a")], []⟩ "a" "b" =
      .ok ⟨[("i1", "b"), ("i2", "b")], []⟩ ∧
    get_habit_id ⟨[("i1", "b"), ("i2", "a")], []⟩ "a" = .ok "i2" ∧
    get_habit_id ⟨[("i1", "b"), ("i2", "b")], []⟩ "b" = .ok "i1" ∧
    get_habit_id ⟨[("i1", "b"), ("i2", "b")], []⟩ "b" ≠
      get_habit_id ⟨[("i1", "b"), ("i2", "a")], []⟩ "a" := by
  refine ⟨rfl, rfl, rfl, ?_⟩
  intro h
  have h' : (Except.ok "i1" : Except String String) = Except.ok "i2" := h
  exact absurd (Except.ok.inj h') (by decide)

lemma find_rename {habits : List (String × String)} {name new_name : String}
    (hno : ∀ p ∈ habits, p.2 = new_name → new_name = name) :
    ((habits.map (fun h => if h.2 == name then (h.1, new_name) else h)).find?
        (fun h => h.2 == new_name)).map Prod.fst =
      (habits.find? (fun h => h.2 == name)).map Prod.fst := by
  induction habits with
  | nil => rfl
  | cons p t ih =>
    have ht : ∀ q ∈ t, q.2 = new_name → new_name = name :=
      fun q hq => hno q (List.mem_cons_of_mem _ hq)
    cases hb : (p.2 == name) with
    | true =>
      have hmap : (p :: t).map (fun h => if h.2 == name then (h.1, new_name) else h) =
          (p.1, new_name) :: t.map (fun h => if h.2 == name then (h.1, new_name) else h) := by
        simp only [List.map_cons]
        rw [if_pos hb]
      rw [hmap, List.find?_cons_of_pos _ (by simp),
        show List.find? (fun h => h.2 == name) (p :: t) = some p from
          List.find?_cons_of_pos _ hb]
      rfl
    | false =>
      have hpn : (p.2 == new_name) = false := by
        rw [beq_eq_false_iff_ne]
        intro hc
        have : p.2 = name := hc.trans (hno p (List.mem_cons_self _ _) hc)
        rw [← beq_iff_eq (a := p.2) (b := name)] at this
        rw [this] at hb
        cases hb
      have hmap : (p :: t).map (fun h => if h.2 == name then (h.1, new_name) else h) =
          p :: t.map (fun h => if h.2 == name then (h.1, new_name) else h) := by
        simp only [List.map_cons]
        rw [if_neg (by simp [hb])]
      rw [hmap, List.find?_cons_of_neg _ (by simp [hpn]),
        show List.find? (fun h => h.2 == name) (p :: t) =
            List.find? (fun h => h.2 == name) t from
          List.find?_cons_of_neg _ (by simp [hb]),
        ih ht]

lemma get_marked_days_congr {s s' : StorageState} {n n' : String}
    (hid : get_habit_id s' n' = get_habit_id s n) (hent : s'.entries = s.entries)
    (d1 d2 : Date) : get_marked_days s' n' d1 d2 = get_marked_days s n d1 d2 := by
  unfold get_marked_days
  rw [hid, hent]

/-- C8 amended: `rename_habit` fails with the not-found error when the old
name does not exist; when the habit exists and no *other* habit already
carries `new_name`, it succeeds, leaves the entry table untouched, keeps the
habit's id (`get_habit_id new_name` afterwards equals `get_habit_id name`
before), and `get_marked_days` under the new name answers exactly as under
the old name before. -/
theorem C8_rename_preserves (s : StorageState) (name new_name : String) :
    (habit_exists s name = false →
      rename_habit s name new_name = .error ("habit " ++ name ++ " not found")) ∧
    ((∀ p ∈ s.habits, p.2 = new_name → new_name = name) →
      habit_exists s name = true →
      ∃ s', rename_habit s name new_name = .ok s' ∧
        s'.entries = s.entries ∧
        get_habit_id s' new_name = get_habit_id s name ∧
        ∀ d1 d2 : Date, get_marked_days s' new_name d1 d2 =
          get_marked_days s name d1 d2) := by
  refine ⟨fun h => by simp [rename_habit, h], fun hno hex => ?_⟩
  have hgid : get_habit_id
      (⟨s.habits.map (fun h => if h.2 == name then (h.1, new_name) else h), s.entries⟩ : StorageState)
      new_name = get_habit_id s name := by
    obtain ⟨id, hid⟩ := get_habit_id_ok_of_exists hex
    have hl := @find_rename s.habits name new_name hno
    unfold get_habit_id
    cases hf : s.habits.find? (fun h => h.2 == name) with
    | none =>
      unfold get_habit_id at hid
      rw [hf] at hid
      cases hid
    | some q =>
      rw [hf] at hl
      cases hg : (s.habits.map (fun h => if h.2 == name then (h.1, new_name) else h)).find?
          (fun h => h.2 == new_name) with
      | none => rw [hg] at hl; cases hl
      | some q' =>
        rw [hg] at hl
        simp only [Option.map_some', Option.some.injEq] at hl
        simp [hl]
  refine ⟨⟨s.habits.map (fun h => if h.2 == name then (h.1, new_name) else h), s.entries⟩,
    ?_, rfl, hgid, fun d1 d2 => get_marked_days_congr hgid rfl d1 d2⟩
  simp [rename_habit, hex]

theorem C8_witness :
    rename_habit ⟨[("i1", "abcde")], []⟩ "missing" "x" =
      .error ("habit " ++ "missing" ++ " not found") ∧
    (∃ s', rename_habit ⟨[("i1", "abcde")], [("i1", "2006-06-07")]⟩ "abcde" "asdfgh" = .ok s' ∧
      s'.entries = [("i1", "2006-06-07")] ∧
      get_habit_id s' "asdfgh" =
        get_habit_id ⟨[("i1", "abcde")], [("i1", "2006-06-07")]⟩ "abcde" ∧
      ∀ d1 d2 : Date, get_marked_days s' "asdfgh" d1 d2 =
        get_marked_days ⟨[("i1", "abcde")], [("i1", "2006-06-07")]⟩ "abcde" d1 d2) :=
  ⟨(C8_rename_preserves ⟨[("i1", "abcde")], []⟩ "missing" "x").1 rfl,
   (C8_rename_preserves ⟨[("i1", "abcde")], [("i1", "2006-06-07")]⟩ "abcde" "asdfgh").2
     (by decide) rfl⟩

lemma create_habit_ok {s s' : StorageState} {id name : String}
    (h : create_habit s id name = .ok s') :
    habit_exists s name = false ∧ s' = ⟨s.habits ++ [(id, name)], s.entries⟩ := by
  unfold create_habit at h
  by_cases h1 : habit_exists s name = true
  · rw [if_pos h1] at h; cases h
  · rw [if_neg h1] at h
    by_cases h2 : (name == "") = true
    · rw [if_pos h2] at h; cases h
    · rw [if_neg h2] at h
      exact ⟨by simpa using h1, (Except.ok.inj h).symm⟩

lemma delete_habit_ok {s s' : StorageState} {name : String}
    (h : delete_habit s name = .ok s') :
    s'.habits = s.habits.filter (fun p => !(p.2 == name)) := by
  unfold delete_habit at h
  by_cases h1 : habit_exists s name = true
  · rw [if_neg (by simp [h1])] at h
    cases hg : get_habit_id s name with
    | error e => rw [hg] at h; cases h
    | ok id =>
      rw [hg] at h
      rw [← Except.ok.inj h]
  · rw [if_pos (by simp [Bool.not_eq_true] at h1 ⊢; exact h1)] at h
    cases h

lemma rename_habit_ok {s s' : StorageState} {name new_name : String}
    (h : rename_habit s name new_name = .ok s') :
    s' = ⟨s.habits.map (fun p => if p.2 == name then (p.1, new_name) else p), s.entries⟩ := by
  unfold rename_habit at h
  by_cases h1 : habit_exists s name = true
  · rw [if_neg (by simp [h1])] at h
    exact (Except.ok.inj h).symm
  · rw [if_pos (by simp [Bool.not_eq_true] at h1 ⊢; exact h1)] at h
    cases h

lemma mark_habit_ok_habits {s s' : StorageState} {name : String} {d : Date}
    (h : mark_habit s name d = .ok s') : s'.habits = s.habits := by
  unfold mark_habit at h
  split at h
  · cases h
  · split at h
    · cases h
    · split at h
      · cases h
      · rw [← Except.ok.inj h]

lemma unmark_habit_ok_habits {s s' : StorageState} {name : String} {d : Date}
    (h : unmark_habit s name d = .ok s') : s'.habits = s.habits := by
  unfold unmark_habit at h
  split at h
  · cases h
  · split at h
    · cases h
    · split at h
      · cases h
      · rw [← Except.ok.inj h]

lemma nodup_rename {habits : List (String × String)} {name new_name : String}
    (hfree : ∀ p ∈ habits, p.2 ≠ new_name)
    (hnd : (habits.map Prod.snd).Nodup) :
    ((habits.map (fun p => if p.2 == name then (p.1, new_name) else p)).map Prod.snd).Nodup := by
  induction habits with
  | nil => simp
  | cons p t ih =>
    simp only [List.map_cons, List.nodup_cons] at hnd
    obtain ⟨hpn, hndt⟩ := hnd
    have hft : ∀ q ∈ t, q.2 ≠ new_name := fun q hq => hfree q (List.mem_cons_of_mem _ hq)
    cases hb : (p.2 == name) with
    | true =>
      have hp : p.2 = name := by simpa using hb
      have htail : t.map (fun q => if q.2 == name then (q.1, new_name) else q) = t := by
        have heq : t.map (fun q => if q.2 == name then (q.1, new_name) else q) = t.map id :=
          List.map_congr_left (fun q hq => by
            have hqn : ¬ (q.2 = name) := by
              intro hc
              have hmem : q.2 ∈ t.map Prod.snd := List.mem_map_of_mem Prod.snd hq
              rw [hc, ← hp] at hmem
              exact hpn hmem
            simp [hqn])
        rw [heq, List.map_id]
      have hmap : (p :: t).map (fun q => if q.2 == name then (q.1, new_name) else q) =
          (p.1, new_name) :: t := by
        simp only [List.map_cons]
        rw [if_pos hb, htail]
      rw [hmap]
      simp only [List.map_cons, List.nodup_cons]
      refine ⟨?_, hndt⟩
      simp only [List.mem_map]
      rintro ⟨q, hq, hq2⟩
      exact hft q hq hq2
    | false =>
      have hmap : (p :: t).map (fun q => if q.2 == name then (q.1, new_name) else q) =
          p :: t.map (fun q => if q.2 == name then (q.1, new_name) else q) := by
        simp only [List.map_cons]
        rw [if_neg (by simp [hb])]
      rw [hmap]
      simp only [List.map_cons, List.nodup_cons]
      refine ⟨?_, ih hft hndt⟩
      simp only [List.mem_map]
      rintro ⟨q', ⟨q, hq, rfl⟩, hq2⟩
      by_cases hqn : (q.2 == name) = true
      · rw [if_pos hqn] at hq2
        exact hfree p (List.mem_cons_self _ _) hq2.symm
      · rw [if_neg hqn] at hq2
        exact hpn (hq2 ▸ List.mem_map_of_mem Prod.snd hq)

lemma safeStep_nodup {s s' : StorageState} (h : SafeStep s s')
    (hnd : (s.habits.map Prod.snd).Nodup) : (s'.habits.map Prod.snd).Nodup := by
  cases h with
  | create id name h =>
    obtain ⟨hex, rfl⟩ := create_habit_ok h
    have hnotin : ∀ x, (x, name) ∉ s.habits := by
      rw [habit_exists_false_iff] at hex
      intro x hx
      exact hex (x, name) hx rfl
    simpa [List.nodup_append] using ⟨hnd, hnotin⟩
  | delete name h =>
    rw [delete_habit_ok h]
    exact hnd.sublist (List.Sublist.map Prod.snd (List.filter_sublist _))
  | rename name new_name hfree h =>
    rw [rename_habit_ok h]
    refine nodup_rename ?_ hnd
    rw [habit_exists_false_iff] at hfree
    exact hfree
  | mark name d h =>
    rw [mark_habit_ok_habits h]
    exact hnd
  | unmark name d h =>
    rw [unmark_habit_ok_habits h]
    exact hnd

/-- C1 fails as stated: `rename_habit` does not check the new name for
collision, so from the empty store the successful sequence create "a",
create "b", rename "a" → "b" produces two habits both named "b". -/
theorem C1_counterexample :
    create_habit ⟨[], []⟩ "i1" "a" = .ok ⟨[("i1", "a")], []⟩ ∧
    create_habit ⟨[("i1", "a")], []⟩ "i2" "b" = .ok ⟨[("i1", "a"), ("i2", "b")], []⟩ ∧
    rename_habit ⟨[("i1", "a"), ("i2", "b")], []⟩ "a" "b" =
      .ok ⟨[("i1", "b"), ("i2", "b")], []⟩ ∧
    ¬ (([("i1", "b"), ("i2", "b")] : List (String × String)).map Prod.snd).Nodup := by
  refine ⟨rfl, rfl, rfl, ?_⟩
  decide

/-- C1 amended: habit-name uniqueness is an invariant of every sequence of
successful `create_habit`, `delete_habit`, `mark_habit`, `unmark_habit`
operations, and of `rename_habit` operations whose new name does not already
belong to a habit, starting from the empty store. -/
theorem C1_name_uniqueness (s : StorageState)
    (h : Relation.ReflTransGen SafeStep ⟨[], []⟩ s) :
    (s.habits.map Prod.snd).Nodup := by
  induction h with
  | refl => simp
  | tail hst step ih => exact safeStep_nodup step ih

theorem C1_witness :
    ((StorageState.mk [("hbt_1", "read")] []).habits.map Prod.snd).Nodup :=
  C1_name_uniqueness ⟨[("hbt_1", "read")], []⟩
    (Relation.ReflTransGen.single (SafeStep.create _ _ "hbt_1" "read" rfl))

lemma decChars_lt_ten {n : Nat} (h : n < 10) : decChars n = [digitChar48 n] := by
  simp [decChars, decCharsCore, h]

lemma int_repr_chars_mod10 (k : Nat) :
    int_repr_chars (Int.ofNat (k + 1) % 10) = [digitChar48 ((k + 1) % 10)] := by
  have hcast : Int.ofNat (k + 1) % 10 = (((k + 1) % 10 : Nat) : Int) := by
    rw [Int.ofNat_eq_natCast]
    push_cast
    ring
  unfold int_repr_chars
  rw [hcast, if_neg (by omega), Int.natAbs_ofNat,
    decChars_lt_ten (Nat.mod_lt _ (by norm_num))]
  rfl

lemma flatten_singletons {α β : Type} (g : α → β) (l : List α) :
    (l.map (fun a => [g a])).flatten = l.map g := by
  induction l with
  | nil => rfl
  | cons x t ih => simp [ih]

lemma foldl_max_init (l : List String) : ∀ i : Nat,
    l.foldl (fun a n => max a n.utf8ByteSize) i =
      max i (l.foldl (fun a n => max a n.utf8ByteSize) 0) := by
  induction l with
  | nil => intro i; simp
  | cons x t ih =>
    intro i
    simp only [List.foldl_cons]
    rw [ih (max i x.utf8ByteSize), ih (max 0 x.utf8ByteSize)]
    generalize t.foldl (fun a n => max a n.utf8ByteSize) 0 = r
    omega

lemma foldl_if_max (l : List String) : ∀ i : Nat,
    l.foldl (fun acc n => if n.utf8ByteSize > acc then n.utf8ByteSize else acc) i =
      max i (l.foldl (fun a n => max a n.utf8ByteSize) 0) := by
  induction l with
  | nil => intro i; simp
  | cons x t ih =>
    intro i
    simp only [List.foldl_cons]
    rw [ih, foldl_max_init t (max 0 x.utf8ByteSize)]
    generalize t.foldl (fun a n => max a n.utf8ByteSize) 0 = r
    split_ifs with h <;> omega

lemma utf8_go_append (l1 l2 : List Char) :
    String.utf8ByteSize.go (l1 ++ l2) =
      String.utf8ByteSize.go l1 + String.utf8ByteSize.go l2 := by
  induction l1 with
  | nil => simp [String.utf8ByteSize.go]
  | cons c t ih =>
    simp only [List.cons_append]
    show String.utf8ByteSize.go (t ++ l2) + c.utf8Size =
      String.utf8ByteSize.go t + c.utf8Size + String.utf8ByteSize.go l2
    rw [ih]
    omega

lemma utf8ByteSize_append (a b : String) :
    (a ++ b).utf8ByteSize = a.utf8ByteSize + b.utf8ByteSize := by
  show String.utf8ByteSize.go (a ++ b).data = _
  rw [String.data_append, utf8_go_append]
  rfl

lemma utf8ByteSize_replicate_space (k : Nat) :
    (String.mk (List.replicate k ' ')).utf8ByteSize = k := by
  induction k with
  | zero => rfl
  | succ k ih =>
    have ihg : String.utf8ByteSize.go (List.replicate k ' ') = k := ih
    show String.utf8ByteSize.go (List.replicate (k + 1) ' ') = k + 1
    rw [List.replicate_succ]
    show String.utf8ByteSize.go (List.replicate k ' ') + ' '.utf8Size = k + 1
    rw [ihg, show ' '.utf8Size = 1 from rfl]

/-- C9: for every target year, month and habit-name list, the grid's header
line is the `YYYY-MM` month label right-padded with spaces to the shared
width — the maximum of the label's byte length plus two and the longest
habit-name byte length (Rust `str::len` counts UTF-8 bytes) — followed by
`"| "`, followed by exactly `num_days year month` characters whose cell for
day `i` is the digit `i % 10`. -/
theorem C9_header_line (year month : Int) (names : List String) :
    header_line year month names =
      month_label year month ++
        String.mk (List.replicate (target_indent year month names -
          (month_label year month).utf8ByteSize) ' ') ++ "| " ++
        String.mk ((List.range (num_days year month).toNat).map
          (fun k => digitChar48 ((k + 1) % 10))) ∧
    target_indent year month names =
      max ((month_label year month).utf8ByteSize + 2)
        (names.foldl (fun a n => max a n.utf8ByteSize) 0) ∧
    (month_label year month ++
      String.mk (List.replicate (target_indent year month names -
        (month_label year month).utf8ByteSize) ' ')).utf8ByteSize =
      target_indent year month names ∧
    ((List.range (num_days year month).toNat).map
      (fun k => digitChar48 ((k + 1) % 10))).length = (num_days year month).toNat := by
  have hfold : target_indent year month names =
      max ((month_label year month).utf8ByteSize + 2)
        (names.foldl (fun a n => max a n.utf8ByteSize) 0) :=
    foldl_if_max names ((month_label year month).utf8ByteSize + 2)
  refine ⟨?_, hfold, ?_, by simp⟩
  · unfold header_line
    have hr : (List.range (num_days year month).toNat).map
        (fun k => int_repr_chars (Int.ofNat (k + 1) % 10)) =
        (List.range (num_days year month).toNat).map
          (fun k => [digitChar48 ((k + 1) % 10)]) :=
      List.map_congr_left (fun k _ => int_repr_chars_mod10 k)
    rw [hr, flatten_singletons]
  · have hle : (month_label year month).utf8ByteSize ≤ target_indent year month names := by
      rw [hfold]
      omega
    rw [utf8ByteSize_append, utf8ByteSize_replicate_space]
    omega

lemma decCharsCore_append : ∀ fuel : Nat, ∀ {n : Nat} (acc : List Char), n < fuel →
    decCharsCore fuel n acc = decCharsCore fuel n [] ++ acc := by
  intro fuel
  induction fuel using Nat.strong_induction_on with
  | _ fuel ih =>
    intro n acc h
    cases fuel with
    | zero => omega
    | succ f =>
      unfold decCharsCore
      by_cases h10 : n < 10
      · simp [h10]
      · rw [if_neg h10, if_neg h10]
        have hf : n / 10 < f := by omega
        rw [ih f (by omega) _ hf, ih f (by omega) [digitChar48 (n % 10)] hf,
          List.append_assoc]
        rfl

lemma decCharsCore_fuel : ∀ fuel fuel' : Nat, ∀ {n : Nat} (acc : List Char),
    n < fuel → n < fuel' →
    decCharsCore fuel n acc = decCharsCore fuel' n acc := by
  intro fuel
  induction fuel using Nat.strong_induction_on with
  | _ fuel ih =>
    intro fuel' n acc h h'
    cases fuel with
    | zero => omega
    | succ f =>
      cases fuel' with
      | zero => omega
      | succ f' =>
        unfold decCharsCore
        by_cases h10 : n < 10
        · rw [if_pos h10, if_pos h10]
        · rw [if_neg h10, if_neg h10]
          exact ih f (by omega) f' _ (by omega) (by omega)

lemma decChars_ge_ten {n : Nat} (h10 : ¬ n < 10) :
    decChars n = decChars (n / 10) ++ [digitChar48 (n % 10)] := by
  unfold decChars
  rw [show decCharsCore (n + 1) n [] = decCharsCore n (n / 10) [digitChar48 (n % 10)] from by
    conv_lhs => unfold decCharsCore
    rw [if_neg h10]]
  rw [decCharsCore_fuel n (n / 10 + 1) _ (by omega) (by omega)]
  rw [decCharsCore_append (n / 10 + 1) _ (by omega)]

lemma decChars_ne_nil (n : Nat) : decChars n ≠ [] := by
  by_cases h10 : n < 10
  · rw [decChars_lt_ten h10]
    simp
  · rw [decChars_ge_ten h10]
    simp

lemma digitChar48_toNat {d : Nat} (h : d < 10) : (digitChar48 d).toNat = 48 + d := by
  interval_cases d <;> decide

lemma digitChar48_isAsciiDigit {d : Nat} (h : d < 10) :
    isAsciiDigit (digitChar48 d) = true := by
  interval_cases d <;> decide

lemma decChars_all_digits (n : Nat) : ∀ c ∈ decChars n, isAsciiDigit c = true := by
  induction n using Nat.strong_induction_on with
  | _ n ih =>
    by_cases h10 : n < 10
    · rw [decChars_lt_ten h10]
      intro c hc
      rw [List.mem_singleton.mp hc]
      exact digitChar48_isAsciiDigit h10
    · rw [decChars_ge_ten h10]
      intro c hc
      rcases List.mem_append.mp hc with h | h
      · exact ih (n / 10) (by omega) c h
      · rw [List.mem_singleton.mp h]
        exact digitChar48_isAsciiDigit (Nat.mod_lt _ (by norm_num))

lemma digitsVal_append_singleton (l : List Char) (c : Char) :
    digitsVal (l ++ [c]) = 10 * digitsVal l + (c.toNat - 48) := by
  unfold digitsVal
  rw [List.foldl_append]
  rfl

lemma digitsVal_decChars (n : Nat) : digitsVal (decChars n) = n := by
  induction n using Nat.strong_induction_on with
  | _ n ih =>
    by_cases h10 : n < 10
    · rw [decChars_lt_ten h10]
      show 10 * 0 + ((digitChar48 n).toNat - 48) = n
      rw [digitChar48_toNat h10]
      omega
    · rw [decChars_ge_ten h10, digitsVal_append_singleton, ih (n / 10) (by omega),
        digitChar48_toNat (Nat.mod_lt _ (by norm_num))]
      omega

lemma decChars_length_le : ∀ k : Nat, ∀ {n : Nat}, 0 < k → n < 10 ^ k →
    (decChars n).length ≤ k := by
  intro k
  induction k with
  | zero => omega
  | succ k ih =>
    intro n _ hn
    by_cases h10 : n < 10
    · rw [decChars_lt_ten h10]
      simp
    · rw [decChars_ge_ten h10]
      rw [List.length_append, List.length_singleton]
      have hk : 0 < k := by
        by_contra hk0
        have : k = 0 := by omega
        subst this
        simp at hn
        omega
      have hdiv : n / 10 < 10 ^ k := by
        rw [Nat.div_lt_iff_lt_mul (by norm_num)]
        rw [pow_succ] at hn
        exact hn
      have := ih hk hdiv
      omega

lemma zero_pad_chars_nonneg {w : Nat} {n : Int} (hn : 0 ≤ n) :
    zero_pad_chars w n =
      List.replicate (w - (decChars n.natAbs).length) '0' ++ decChars n.natAbs := by
  unfold zero_pad_chars
  rw [if_neg (by omega)]
  simp

lemma digitsVal_replicate_zero (z : Nat) (l : List Char) :
    digitsVal (List.replicate z '0' ++ l) = digitsVal l := by
  induction z with
  | zero => rfl
  | succ z ih =>
    rw [List.replicate_succ, List.cons_append]
    show digitsVal (List.replicate z '0' ++ l) = digitsVal l
    exact ih

lemma zero_pad_all_digits {w : Nat} {n : Int} (hn : 0 ≤ n) :
    ∀ c ∈ zero_pad_chars w n, isAsciiDigit c = true := by
  rw [zero_pad_chars_nonneg hn]
  intro c hc
  rcases List.mem_append.mp hc with h | h
  · rw [List.eq_of_mem_replicate h]
    decide
  · exact decChars_all_digits _ c h

lemma zero_pad_length {w : Nat} {n : Int} (hn : 0 ≤ n)
    (hlen : (decChars n.natAbs).length ≤ w) :
    (zero_pad_chars w n).length = w := by
  rw [zero_pad_chars_nonneg hn]
  rw [List.length_append, List.length_replicate]
  omega

lemma zero_pad_ne_nil {w : Nat} {n : Int} (hn : 0 ≤ n) :
    zero_pad_chars w n ≠ [] := by
  rw [zero_pad_chars_nonneg hn]
  intro h
  rcases List.append_eq_nil.mp h with ⟨_, h2⟩
  exact decChars_ne_nil _ h2

lemma digitsVal_zero_pad {w : Nat} {n : Int} (hn : 0 ≤ n) :
    digitsVal (zero_pad_chars w n) = n.natAbs := by
  rw [zero_pad_chars_nonneg hn, digitsVal_replicate_zero, digitsVal_decChars]

lemma asciiDigit_ne_sign {c : Char} (h : isAsciiDigit c = true) :
    (decide (c = '+') || decide (c = '-')) = false := by
  simp only [isAsciiDigit, Bool.and_eq_true, decide_eq_true_eq] at h
  simp only [Bool.or_eq_false_iff, decide_eq_false_iff_not]
  constructor
  · intro hc
    subst hc
    exact absurd h (by decide)
  · intro hc
    subst hc
    exact absurd h (by decide)

lemma asciiDigit_ne_dash {c : Char} (h : isAsciiDigit c = true) : c ≠ '-' := by
  intro hc
  subst hc
  exact absurd h (by decide)

lemma asciiDigit_not_ws {c : Char} (h : isAsciiDigit c = true) :
    isRustWhitespace c = false := by
  simp only [isAsciiDigit, Bool.and_eq_true, decide_eq_true_eq] at h
  simp only [isRustWhitespace, Bool.or_eq_false_iff, Bool.and_eq_false_iff,
    decide_eq_false_iff_not]
  omega

lemma dash_not_ws : isRustWhitespace '-' = false := by decide

/-- For a nonempty all-digit character list within the `i32` range,
`parse_i32` succeeds with the digits' value. -/
lemma parse_i32_digits {l : List Char} (hne : l ≠ [])
    (hd : ∀ c ∈ l, isAsciiDigit c = true)
    (hrange : digitsVal l ≤ 2147483647) :
    parse_i32 l = .ok ((digitsVal l : Nat) : Int) := by
  cases l with
  | nil => exact absurd rfl hne
  | cons c rest =>
    have hsign : (decide (c = '+') || decide (c = '-')) = false :=
      asciiDigit_ne_sign (hd c (List.mem_cons_self _ _))
    have hcm : ¬ (c = '-') := by
      intro hc
      subst hc
      exact absurd (hd '-' (List.mem_cons_self _ _)) (by decide)
    have hall : (c :: rest).all isAsciiDigit = true :=
      List.all_eq_true.mpr (fun x hx => hd x hx)
    simp only [parse_i32]
    rw [hsign]
    simp only [Bool.false_eq_true, if_false]
    rw [if_neg (by simp : ¬ (c :: rest = [])), if_neg (not_not_intro hall),
      if_neg hcm, if_pos hrange]

lemma dropWhile_eq_self {p : Char → Bool} {l : List Char}
    (h : ∀ c ∈ l, p c = false) : l.dropWhile p = l := by
  cases l with
  | nil => rfl
  | cons x t =>
    rw [List.dropWhile_cons, if_neg (by simp [h x (List.mem_cons_self _ _)])]

lemma rust_trim_eq_self {l : List Char} (h : ∀ c ∈ l, isRustWhitespace c = false) :
    rust_trim l = l := by
  unfold rust_trim
  rw [dropWhile_eq_self h,
    dropWhile_eq_self (fun c hc => h c (List.mem_reverse.mp hc)),
    List.reverse_reverse]

lemma splitFirstDash_append {a r : List Char} (h : ∀ c ∈ a, c ≠ '-') :
    splitFirstDash (a ++ '-' :: r) = (a, some r) := by
  induction a with
  | nil => simp [splitFirstDash]
  | cons x t ih =>
    rw [List.cons_append]
    unfold splitFirstDash
    rw [if_neg (h x (List.mem_cons_self _ _))]
    rw [ih (fun c hc => h c (List.mem_cons_of_mem _ hc))]

lemma splitn3_format {a b c : List Char}
    (ha : ∀ x ∈ a, x ≠ '-') (hb : ∀ x ∈ b, x ≠ '-') :
    splitn3 (a ++ '-' :: (b ++ '-' :: c)) = [a, b, c] := by
  unfold splitn3
  rw [splitFirstDash_append ha]
  dsimp only
  rw [splitFirstDash_append hb]

set_option maxHeartbeats 1600000 in
lemma num_days_le_31 (y m : Int) : num_days y m ≤ 31 := by
  unfold num_days
  split_ifs <;> omega

lemma is_valid_bounds {d : Date} (h : d.is_valid = true) :
    1 ≤ d.year ∧ 1 ≤ d.month ∧ d.month ≤ 12 ∧ 1 ≤ d.day ∧
      d.day ≤ num_days d.year d.month := by
  unfold Date.is_valid at h
  split_ifs at h with h1 h2 h3
  push_neg at h1 h2 h3
  omega

/-- C2 fails as stated: `is_valid` puts no upper bound on the year, so
`{12345, 6, 7}` is valid and formats (the `{:04}` pad is a minimum width)
to `"12345-06-07"`, which `from_string` rejects for its five-character year
field. -/
theorem C2_counterexample :
    Date.is_valid ⟨12345, 6, 7⟩ = true ∧
    Date.to_string ⟨12345, 6, 7⟩ = .ok "12345-06-07" ∧
    Date.from_string "12345-06-07" =
      .error "failed to parse year 12345, expected YYYY" := by
  refine ⟨by decide, by rfl, by rfl⟩

/-- C2 amended: for every valid date whose year is at most 9999,
`to_string` succeeds and `from_string` of its output returns the same
date. -/
theorem C2_roundtrip (d : Date) (hv : d.is_valid = true) (hy : d.year ≤ 9999) :
    d.to_string = .ok (format_date d) ∧
    Date.from_string (format_date d) = .ok d := by
  obtain ⟨hy1, hm1, hm2, hd1, hd2⟩ := is_valid_bounds hv
  have hd31 : d.day ≤ 31 := le_trans hd2 (num_days_le_31 _ _)
  have hp4 : (10 : Nat) ^ 4 = 10000 := by norm_num
  have hp2 : (10 : Nat) ^ 2 = 100 := by norm_num
  have hylen : (decChars d.year.natAbs).length ≤ 4 :=
    decChars_length_le 4 (by norm_num) (by rw [hp4]; omega)
  have hmlen : (decChars d.month.natAbs).length ≤ 2 :=
    decChars_length_le 2 (by norm_num) (by rw [hp2]; omega)
  have hdlen : (decChars d.day.natAbs).length ≤ 2 :=
    decChars_length_le 2 (by norm_num) (by rw [hp2]; omega)
  have hYlen : (zero_pad_chars 4 d.year).length = 4 := zero_pad_length (by omega) hylen
  have hMlen : (zero_pad_chars 2 d.month).length = 2 := zero_pad_length (by omega) hmlen
  have hDlen : (zero_pad_chars 2 d.day).length = 2 := zero_pad_length (by omega) hdlen
  have hYdig : ∀ c ∈ zero_pad_chars 4 d.year, isAsciiDigit c = true :=
    zero_pad_all_digits (by omega)
  have hMdig : ∀ c ∈ zero_pad_chars 2 d.month, isAsciiDigit c = true :=
    zero_pad_all_digits (by omega)
  have hDdig : ∀ c ∈ zero_pad_chars 2 d.day, isAsciiDigit c = true :=
    zero_pad_all_digits (by omega)
  have hYrange : digitsVal (zero_pad_chars 4 d.year) ≤ 2147483647 := by
    rw [digitsVal_zero_pad (by omega)]
    omega
  have hMrange : digitsVal (zero_pad_chars 2 d.month) ≤ 2147483647 := by
    rw [digitsVal_zero_pad (by omega)]
    omega
  have hDrange : digitsVal (zero_pad_chars 2 d.day) ≤ 2147483647 := by
    rw [digitsVal_zero_pad (by omega)]
    omega
  have hYval : ((digitsVal (zero_pad_chars 4 d.year) : Nat) : Int) = d.year := by
    rw [digitsVal_zero_pad (by omega)]
    exact Int.natAbs_of_nonneg (by omega)
  have hMval : ((digitsVal (zero_pad_chars 2 d.month) : Nat) : Int) = d.month := by
    rw [digitsVal_zero_pad (by omega)]
    exact Int.natAbs_of_nonneg (by omega)
  have hDval : ((digitsVal (zero_pad_chars 2 d.day) : Nat) : Int) = d.day := by
    rw [digitsVal_zero_pad (by omega)]
    exact Int.natAbs_of_nonneg (by omega)
  have hws : ∀ c ∈ zero_pad_chars 4 d.year ++
      '-' :: (zero_pad_chars 2 d.month ++ '-' :: zero_pad_chars 2 d.day),
      isRustWhitespace c = false := by
    intro c hc
    rcases List.mem_append.mp hc with h | h
    · exact asciiDigit_not_ws (hYdig c h)
    · rcases List.mem_cons.mp h with rfl | h
      · exact dash_not_ws
      · rcases List.mem_append.mp h with h | h
        · exact asciiDigit_not_ws (hMdig c h)
        · rcases List.mem_cons.mp h with rfl | h
          · exact dash_not_ws
          · exact asciiDigit_not_ws (hDdig c h)
  refine ⟨by simp [Date.to_string, hv], ?_⟩
  unfold Date.from_string
  rw [show (format_date d).data = zero_pad_chars 4 d.year ++
    '-' :: (zero_pad_chars 2 d.month ++ '-' :: zero_pad_chars 2 d.day) from rfl]
  rw [rust_trim_eq_self hws]
  rw [splitn3_format (fun x hx => asciiDigit_ne_dash (hYdig x hx))
    (fun x hx => asciiDigit_ne_dash (hMdig x hx))]
  dsimp only
  rw [if_neg (not_not_intro hYlen), if_neg (not_not_intro hMlen),
    if_neg (not_not_intro hDlen)]
  rw [parse_i32_digits (zero_pad_ne_nil (by omega)) hYdig hYrange,
    parse_i32_digits (zero_pad_ne_nil (by omega)) hMdig hMrange,
    parse_i32_digits (zero_pad_ne_nil (by omega)) hDdig hDrange]
  dsimp only
  rw [hYval, hMval, hDval]
  rw [if_pos hv]

theorem C2_witness :
    Date.is_valid ⟨2006, 6, 7⟩ = true ∧ (2006 : Int) ≤ 9999 ∧
    (Date.to_string ⟨2006, 6, 7⟩ = .ok (format_date ⟨2006, 6, 7⟩) ∧
     Date.from_string (format_date ⟨2006, 6, 7⟩) = .ok ⟨2006, 6, 7⟩) :=
  ⟨by decide, by decide, C2_roundtrip ⟨2006, 6, 7⟩ (by decide) (by decide)⟩

lemma parse_i32_isSome (l : List Char) : (parse_i32 l).toOption.isSome = i32Numeral l := by
  cases l with
  | nil => rfl
  | cons c rest =>
    simp only [parse_i32, i32Numeral]
    split_ifs <;> simp_all [Except.toOption]

lemma parse_i32_ok_of_numeral {l : List Char} (h : i32Numeral l = true) :
    parse_i32 l = .ok (i32Value l) := by
  cases l with
  | nil => exact absurd h (by decide)
  | cons c rest =>
    simp only [i32Numeral, Bool.and_eq_true, decide_eq_true_eq] at h
    obtain ⟨⟨hne, hall⟩, hC⟩ := h
    simp only [parse_i32, i32Value]
    rw [if_neg hne, if_neg (not_not_intro hall)]
    by_cases hm : c = '-'
    · rw [if_pos hm] at hC
      rw [if_pos hm, if_pos hm, if_pos (of_decide_eq_true hC)]
    · rw [if_neg hm] at hC
      rw [if_neg hm, if_neg hm, if_pos (of_decide_eq_true hC)]

lemma parse_i32_error_of_not_numeral {l : List Char} (h : i32Numeral l = false) :
    ∃ e, parse_i32 l = .error e := by
  cases hp : parse_i32 l with
  | error e => exact ⟨e, rfl⟩
  | ok v =>
    have hs := parse_i32_isSome l
    rw [hp, h] at hs
    simp [Except.toOption] at hs

/-- C3 amended: `from_string` succeeds exactly on strings whose
whitespace-trimmed form splits at the first two hyphens into fields of byte
widths 4, 2 and 2, where each field is an *optionally signed* decimal `i32`
numeral and the denoted date is calendar-valid.  (The original claim's
digits-only shape is refuted by `C3_counterexample`: a leading `'+'` inside a
field and surrounding whitespace are also accepted.) -/
theorem C3_parse_characterization (s : String) :
    (Date.from_string s).toOption.isSome = spec_accepts s := by
  unfold Date.from_string spec_accepts
  cases hsp : splitn3 (rust_trim s.data) with
  | nil => rfl
  | cons a t =>
    cases t with
    | nil => rfl
    | cons b t2 =>
      cases t2 with
      | nil => rfl
      | cons c t3 =>
        cases t3 with
        | cons x t4 => rfl
        | nil =>
          dsimp only
          by_cases h4 : a.length = 4
          case neg => simp [Except.toOption, h4]
          case pos =>
            rw [if_neg (not_not_intro h4)]
            by_cases hb2 : b.length = 2
            case neg => simp [Except.toOption, hb2]
            case pos =>
              rw [if_neg (not_not_intro hb2)]
              by_cases hc2 : c.length = 2
              case neg => simp [Except.toOption, hc2]
              case pos =>
                rw [if_neg (not_not_intro hc2)]
                by_cases hna : i32Numeral a = true
                case neg =>
                  rw [Bool.not_eq_true] at hna
                  obtain ⟨e, hpe⟩ := parse_i32_error_of_not_numeral hna
                  rw [hpe]
                  simp [Except.toOption, hna]
                case pos =>
                  rw [parse_i32_ok_of_numeral hna]
                  dsimp only
                  by_cases hnb : i32Numeral b = true
                  case neg =>
                    rw [Bool.not_eq_true] at hnb
                    obtain ⟨e, hpe⟩ := parse_i32_error_of_not_numeral hnb
                    rw [hpe]
                    simp [Except.toOption, hnb]
                  case pos =>
                    rw [parse_i32_ok_of_numeral hnb]
                    dsimp only
                    by_cases hnc : i32Numeral c = true
                    case neg =>
                      rw [Bool.not_eq_true] at hnc
                      obtain ⟨e, hpe⟩ := parse_i32_error_of_not_numeral hnc
                      rw [hpe]
                      simp [Except.toOption, hnc]
                    case pos =>
                      rw [parse_i32_ok_of_numeral hnc]
                      dsimp only
                      by_cases hv : (Date.mk (i32Value a) (i32Value b) (i32Value c)).is_valid = true
                      · simp [Except.toOption, hv, h4, hb2, hc2, hna, hnb, hnc]
                      · simp [Except.toOption, hv, h4, hb2, hc2, hna, hnb, hnc]

/-- C3 fails as stated: the input `"2006-06-+7"` is not of the strict
digits-only `YYYY-MM-DD` shape (its day field is `"+7"`), yet `from_string`
accepts it, because Rust's `str::parse::<i32>` allows a leading sign. -/
theorem C3_counterexample :
    Date.from_string "2006-06-+7" = .ok ⟨2006, 6, 7⟩ ∧
    specStrictShape "2006-06-+7" = false := ⟨by rfl, by decide⟩

example : Date.from_string "2006-06-07" = .ok ⟨2006, 6, 7⟩ := by rfl
example : (Date.from_string "2006-6-7").toOption = none := by decide
example : Date.from_string "2006-06-+7" = .ok ⟨2006, 6, 7⟩ := by rfl
example : format_date ⟨2006, 6, 7⟩ = "2006-06-07" := by decide
example : format_date ⟨12345, 6, 7⟩ = "12345-06-07" := by decide
example : Date.is_valid ⟨12345, 6, 7⟩ = true := by decide
example : num_days 2000 2 = 29 ∧ num_days 1900 2 = 28 ∧ num_days 2006 6 = 30 := by decide

example : header_line 2006 6 [] =
    "2006-06  | 123456789012345678901234567890" := by decide
example : header_line 2006 6 ["absurdlylongname"] =
    "2006-06         | 123456789012345678901234567890" := by decide
example : target_indent 2006 6 ["ééééééééééé"] = 22 := by decide
example : target_indent 2006 6 ["abcdefghijk"] = 11 := by decide
